import Mathlib

/-!
Verification of the signing-oracle core: message hashing, signature
verification (src/oracle/pkg/signature_verifier/verifier.go), the signing
service (pkg/signingoracle), the delegation checker
(src/oracle/pkg/delegation/verifier.go) and the HTTP /verify handlers
(src/oracle/cmd/oracle/main.go and the unnamed cmd variant).

Modelling conventions:
- Go strings and byte slices are `List Nat` (each entry a byte value).
- Keccak-256 and the secp256k1 operations live in the external
  go-ethereum library, outside this repository; they are taken as
  function parameters (`keccak`, `ecrecover`, `sign`), and the library's
  documented behaviour (recovery of the signer's public key from a
  signature, 65-byte signatures) appears as explicit hypotheses.
- Fallible Go functions returning `(T, error)` become `Except E T`.
- The delegation verifier's only external effect is HTTP POSTs to the
  chain RPC endpoint; each definition returns its result paired with the
  number of RPC calls it performed, and the endpoint's answer to the
  active-era storage query is an explicit environment value.
-/

namespace Oracle

/-- Decidable equality on `Except`, so that concrete runs of the
embedded functions can be checked by `decide`. -/
instance {ε : Type u} {α : Type v} [DecidableEq ε] [DecidableEq α] :
    DecidableEq (Except ε α) := fun a b =>
  match a, b with
  | .error e, .error f => decidable_of_iff (e = f) (by simp)
  | .error _, .ok _ => isFalse (by simp)
  | .ok _, .error _ => isFalse (by simp)
  | .ok x, .ok y => decidable_of_iff (x = y) (by simp)

/-- Go byte strings: a list of byte values. -/
abbrev Bytes := List Nat

/-- Byte list of an ASCII Lean string literal (codepoint = byte for ASCII). -/
def strBytes (s : String) : Bytes := s.data.map Char.toNat

/-! ## encoding/hex (Go standard library, as used by the verifier)

`fromHexChar`, `hexDecode` and `hexEncode` model `hex.DecodeString` and
`hex.EncodeToString`: decoding consumes character pairs, fails on a
non-hex character and on odd input length; encoding emits lowercase
digits, high nibble first. -/

def fromHexChar (c : Nat) : Option Nat :=
  if 48 ≤ c ∧ c ≤ 57 then some (c - 48)
  else if 97 ≤ c ∧ c ≤ 102 then some (c - 97 + 10)
  else if 65 ≤ c ∧ c ≤ 70 then some (c - 65 + 10)
  else none

def hexDecode : List Nat → Option Bytes
  | [] => some []
  | [_] => none
  | a :: b :: rest =>
    match fromHexChar a, fromHexChar b with
    | some x, some y => (hexDecode rest).map (fun tl => (x * 16 + y) :: tl)
    | _, _ => none

def toHexChar (n : Nat) : Nat := if n < 10 then 48 + n else 87 + n

def hexEncode : Bytes → List Nat
  | [] => []
  | b :: rest => toHexChar (b / 16) :: toHexChar (b % 16) :: hexEncode rest

/-! ## MessageCodec (pkg/signature_verifier/verifier.go) -/

/-- The byte content of the Go literal "\x19Ethereum Signed Message:\n32"
used in `toEthSignedMessageHash` (and in SignTriplet / SignEthereumMessage). -/
def prefixBytes : Bytes := strBytes "\x19Ethereum Signed Message:\n32"

/-- createMessageHash: `message := validatorAddress + nominatorAddress + msgText;
crypto.Keccak256([]byte(message))`. Go `+` on strings concatenates bytes,
left-associated. -/
def createMessageHash (keccak : Bytes → Bytes)
    (validatorAddress nominatorAddress msgText : Bytes) : Bytes :=
  keccak ((validatorAddress ++ nominatorAddress) ++ msgText)

/-- toEthSignedMessageHash: `crypto.Keccak256(append(prefix, messageHash...))`. -/
def toEthSignedMessageHash (keccak : Bytes → Bytes) (messageHash : Bytes) : Bytes :=
  keccak (prefixBytes ++ messageHash)

/-! ## SignatureEngine / VerifierService (pkg/signature_verifier/verifier.go) -/

/-- Error kinds produced by `SubmitMessage` / `recoverSigner`; each carries
the data the Go `fmt.Errorf` message interpolates. -/
inductive VerifierError where
  | invalidSignatureHex : VerifierError
  | invalidSignatureLength (got : Nat) : VerifierError
  | recoverFailed : VerifierError
  | signerNotOracle (expected got : Bytes) : VerifierError
  deriving DecidableEq, Repr

/-- Address extraction: `var address common.Address;
copy(address[:], crypto.Keccak256(pubKey[1:])[12:])` — the first 20 bytes
of the digest past byte 12, into a zero-initialised 20-byte array. -/
def addressFromPubKey (keccak : Bytes → Bytes) (pubKey : Bytes) : Bytes :=
  List.take 20 (((keccak (pubKey.drop 1)).drop 12) ++ List.replicate 20 0)

/-- recoverSigner: length check, `crypto.Ecrecover`, then address extraction.
`ecrecover hash sig` is the external secp256k1 recovery, `none` on
mathematical failure. -/
def recoverSigner (keccak : Bytes → Bytes) (ecrecover : Bytes → Bytes → Option Bytes)
    (ethSignedMessageHash signature : Bytes) : Except VerifierError Bytes :=
  if signature.length ≠ 65 then
    .error (.invalidSignatureLength signature.length)
  else
    match ecrecover ethSignedMessageHash signature with
    | none => .error .recoverFailed
    | some pubKey => .ok (addressFromPubKey keccak pubKey)

/-- SubmitMessage: decode hex, check length 65, rebuild the hash chain,
recover the signer, compare with the configured oracle address. -/
def SubmitMessage (keccak : Bytes → Bytes) (ecrecover : Bytes → Bytes → Option Bytes)
    (oracleAddress validatorAddress nominatorAddress msgText : Bytes)
    (signatureHex : List Nat) : Except VerifierError Unit :=
  match hexDecode signatureHex with
  | none => .error .invalidSignatureHex
  | some signature =>
    if signature.length ≠ 65 then
      .error (.invalidSignatureLength signature.length)
    else
      let messageHash := createMessageHash keccak validatorAddress nominatorAddress msgText
      let ethSignedMessageHash := toEthSignedMessageHash keccak messageHash
      match recoverSigner keccak ecrecover ethSignedMessageHash signature with
      | .error e => .error e
      | .ok recoveredAddress =>
        if recoveredAddress ≠ oracleAddress then
          .error (.signerNotOracle oracleAddress recoveredAddress)
        else
          .ok ()

/-! ## pkg/signingoracle (unnamed part: SigningOracle methods)

`sign` stands for `crypto.Sign(hash, privateKey)`; its first argument makes
the scheme's internal randomness (the signing nonce) explicit, so that
claims quantifying over the nonce can be stated. `K` is the private-key
type, held abstract. -/

/-- SignTriplet: keccak256 of the packed triplet, EIP-191 wrap, sign. -/
def SignTriplet {K : Type} (keccak : Bytes → Bytes) (sign : Nat → Bytes → K → Bytes)
    (nonce : Nat) (key : K) (validator nominator msgText : Bytes) : Bytes :=
  let packed := (validator ++ nominator) ++ msgText
  let h := keccak packed
  let ethSigned := keccak (prefixBytes ++ h)
  sign nonce ethSigned key

/-- SignMessage (identical in cmd/oracle/main.go and pkg/signingoracle):
`crypto.Keccak256Hash([]byte(msg))`, sign it, hex-encode the signature.
`sign` returns `none` when `crypto.Sign` errors. -/
def SignMessage {K : Type} (keccak : Bytes → Bytes) (sign : Bytes → K → Option Bytes)
    (key : K) (msg : Bytes) : Option Bytes :=
  (sign (keccak msg) key).map hexEncode

/-! ## DelegationChecker (pkg/delegation/verifier.go)

The verifier's only external effect relevant here is the HTTP POST inside
`makeRPCCall`. Within one request, every `getActiveEra` call queries the
same ActiveEra storage key at the same endpoint; the environment records
the endpoint's answer (`Except` error payload = the transport / parse /
RPC-level error text produced by `makeRPCCall`). Each function returns its
result paired with the number of RPC calls it performed. -/

/-- The chain RPC endpoint's answer to the active-era storage query. -/
structure RpcEnv (Era : Type) where
  activeEra : Except Bytes Era

/-- Error kinds of the delegation verifier, with the underlying
`makeRPCCall` error text where one exists. -/
inductive DelegationError where
  | eraFetchFailed (underlying : Bytes) : DelegationError
  | invalidAddressFormat : DelegationError
  deriving DecidableEq, Repr

/-- getActiveEra: one `state_getStorage` RPC call; wraps a call failure as
"failed to get active era". -/
def getActiveEra {Era : Type} (env : RpcEnv Era) : Except DelegationError Era × Nat :=
  match env.activeEra with
  | .error m => (.error (.eraFetchFailed m), 1)
  | .ok e => (.ok e, 1)

/-- checkIfNominated: placeholder address-length validation, then
unconditionally `true`; makes no RPC call. -/
def checkIfNominated (nominatorAddress validatorAddress : Bytes) :
    Except DelegationError Bool × Nat :=
  (if nominatorAddress.length < 10 ∨ validatorAddress.length < 10 then
     .error .invalidAddressFormat
   else
     .ok true, 0)

/-- checkIfActive: queries the active era again, then unconditionally
`true` ("assume the nomination is active if it exists"). -/
def checkIfActive {Era : Type} (env : RpcEnv Era)
    (_nominatorAddress _validatorAddress : Bytes) : Except DelegationError Bool × Nat :=
  match getActiveEra env with
  | (.error e, c) => (.error e, c)
  | (.ok _, c) => (.ok true, c)

/-- VerifyDelegation: era probe, nomination check, activity check, in
source order; any error short-circuits (Go wraps each with stage context
via `%w`, preserving the underlying kind). Returns true after a
successful activity stage regardless of the `isActive` value. -/
def VerifyDelegation {Era : Type} (env : RpcEnv Era)
    (nominatorAddress validatorAddress : Bytes) : Except DelegationError Bool × Nat :=
  match getActiveEra env with
  | (.error e, c) => (.error e, c)
  | (.ok _, c1) =>
    match checkIfNominated nominatorAddress validatorAddress with
    | (.error e, c2) => (.error e, c1 + c2)
    | (.ok isNominated, c2) =>
      if isNominated = false then
        (.ok false, c1 + c2)
      else
        match checkIfActive env nominatorAddress validatorAddress with
        | (.error e, c3) => (.error e, c1 + c2 + c3)
        | (.ok _isActive, c3) => (.ok true, c1 + c2 + c3)

/-! ## HTTP layer (cmd/oracle/main.go and the unnamed cmd variant)

The handlers are modelled from the point where the JSON body has been
decoded into a `Request` (the earlier CORS / method / body-decode stages
are HTTP-framework plumbing outside these claims). The delegation check
is the handler's injected dependency `delegCheck`, instantiated with the
real `VerifyDelegation` where a claim is about the composed system. -/

structure Request where
  validator_address : Bytes
  nominator_address : Bytes
  msg : Bytes
  deriving DecidableEq, Repr

/-- The three response shapes the handlers produce: a JSON
`ErrorResponse{error, message}`, a JSON success `Response`, or a plain
`http.Error` text. -/
inductive HttpResponse where
  | errorJson (status : Nat) (error message : Bytes) : HttpResponse
  | successJson (status : Nat) (validator nominator msg signature : Bytes) : HttpResponse
  | plainError (status : Nat) (text : Bytes) : HttpResponse
  deriving DecidableEq, Repr

/-- The signature field of a success body, if the response has one. -/
def bodySignature : HttpResponse → Option Bytes
  | .successJson _ _ _ _ s => some s
  | _ => none

/-- The error field of a JSON error body, if the response has one. -/
def respError : HttpResponse → Option Bytes
  | .errorJson _ e _ => some e
  | _ => none

/-- Rendering of a delegation error as the text interpolated into the
handler's "Failed to verify delegation: %v" message. -/
def delegErrString : DelegationError → Bytes
  | .eraFetchFailed m => strBytes "failed to get active era: " ++ m
  | .invalidAddressFormat => strBytes "failed to check nomination: invalid address format"

namespace CmdOracle

/-- VerifyHandler of src/oracle/cmd/oracle/main.go: field validation,
delegation check (nominator first), then `SignMessage`; the success body
carries the bare hex signature string exactly as `SignMessage` returned it. -/
def VerifyHandler {K : Type} (delegCheck : Bytes → Bytes → Except DelegationError Bool)
    (keccak : Bytes → Bytes) (sign : Bytes → K → Option Bytes) (key : K)
    (req : Request) : HttpResponse :=
  if req.validator_address = [] ∨ req.nominator_address = [] ∨ req.msg = [] then
    .plainError 400 (strBytes "Missing required fields")
  else
    match delegCheck req.nominator_address req.validator_address with
    | .error e =>
      .errorJson 500 (strBytes "verification_failed")
        (strBytes "Failed to verify delegation: " ++ delegErrString e)
    | .ok false =>
      .errorJson 400 (strBytes "delegation_not_found")
        (strBytes "Nominator has not delegated to the specified validator")
    | .ok true =>
      match SignMessage keccak sign key req.msg with
      | none => .plainError 500 (strBytes "Internal server error")
      | some signature =>
        .successJson 200 req.validator_address req.nominator_address req.msg signature

end CmdOracle

namespace SigningOracleCmd

/-- VerifyHandler of the unnamed cmd variant (built on pkg/signingoracle):
identical flow, but the success body's signature is `"0x" + signature`. -/
def VerifyHandler {K : Type} (delegCheck : Bytes → Bytes → Except DelegationError Bool)
    (keccak : Bytes → Bytes) (sign : Bytes → K → Option Bytes) (key : K)
    (req : Request) : HttpResponse :=
  if req.validator_address = [] ∨ req.nominator_address = [] ∨ req.msg = [] then
    .plainError 400 (strBytes "Missing required fields")
  else
    match delegCheck req.nominator_address req.validator_address with
    | .error e =>
      .errorJson 500 (strBytes "verification_failed")
        (strBytes "Failed to verify delegation: " ++ delegErrString e)
    | .ok false =>
      .errorJson 400 (strBytes "delegation_not_found")
        (strBytes "Nominator has not delegated to the specified validator")
    | .ok true =>
      match SignMessage keccak sign key req.msg with
      | none => .plainError 500 (strBytes "Internal server error")
      | some signature =>
        .successJson 200 req.validator_address req.nominator_address req.msg
          (strBytes "0x" ++ signature)

end SigningOracleCmd

/-! ## Concrete instances of the external-function parameters

Used by the witnesses to evaluate the embedded code on closed inputs.
`kc0` stands in for Keccak-256, `ecP`/`ec0` for `crypto.Ecrecover`,
`sg65`/`sgOpt` for `crypto.Sign`, `dgT`/`dgF` for a delegation check. -/

def kc0 : Bytes → Bytes := fun _ => List.replicate 32 0

def ec0 : Bytes → Bytes → Option Bytes := fun _ _ => none

def pk0 : Bytes := List.replicate 65 4

def ecP : Bytes → Bytes → Option Bytes := fun _ _ => some pk0

def sg65 : Nat → Bytes → Nat → Bytes := fun _ _ _ => List.replicate 65 2

def sgOpt : Bytes → Nat → Option Bytes := fun _ _ => some (List.replicate 65 0)

def dgT : Bytes → Bytes → Except DelegationError Bool := fun _ _ => .ok true

def dgF : Bytes → Bytes → Except DelegationError Bool := fun _ _ => .ok false

/-! ## Helper lemmas about the hex codec -/

theorem fromHexChar_toHexChar (n : Nat) (h : n < 16) :
    fromHexChar (toHexChar n) = some n := by
  unfold toHexChar fromHexChar
  interval_cases n <;> decide

theorem hexDecode_hexEncode :
    ∀ (bs : Bytes), (∀ b ∈ bs, b < 256) → hexDecode (hexEncode bs) = some bs
  | [], _ => rfl
  | b :: rest, h => by
    have hb : b < 256 := h b (List.mem_cons_self b rest)
    have hhi : b / 16 < 16 := Nat.div_lt_of_lt_mul (by omega)
    have hlo : b % 16 < 16 := Nat.mod_lt b (by omega)
    have ih := hexDecode_hexEncode rest (fun x hx => h x (List.mem_cons_of_mem b hx))
    have hsplit : b / 16 * 16 + b % 16 = b := by
      have := Nat.div_add_mod b 16
      omega
    simp only [hexEncode, hexDecode, fromHexChar_toHexChar _ hhi,
      fromHexChar_toHexChar _ hlo, ih, hsplit]
    rfl

theorem hexDecode_oddLength :
    ∀ (s : List Nat), s.length % 2 = 1 → hexDecode s = none
  | [], h => by simp at h
  | [_], _ => rfl
  | a :: b :: rest, h => by
    have hr : rest.length % 2 = 1 := by
      have : (a :: b :: rest).length = rest.length + 2 := by simp
      omega
    have ih := hexDecode_oddLength rest hr
    unfold hexDecode
    cases hfa : fromHexChar a <;> cases hfb : fromHexChar b <;> simp [ih]

theorem hexDecode_hasBadChar :
    ∀ (s : List Nat) (c : Nat), c ∈ s → fromHexChar c = none → hexDecode s = none
  | [], c, hc, _ => absurd hc (List.not_mem_nil c)
  | [_], _, _, _ => rfl
  | a :: b :: rest, c, hc, hbad => by
    unfold hexDecode
    rcases List.mem_cons.mp hc with rfl | hc'
    · simp [hbad]
    rcases List.mem_cons.mp hc' with rfl | hc''
    · cases hfa : fromHexChar a <;> simp [hbad]
    · cases hfa : fromHexChar a <;> cases hfb : fromHexChar b <;>
        simp [hexDecode_hasBadChar rest c hc'' hbad]

/-! ## Helper lemma: closed form of a VerifyDelegation run -/

/-- One delegation-check run: the era-probe result and the two address
lengths fully determine the outcome and the number of RPC calls. -/
theorem verifyDelegation_run {Era : Type} (env : RpcEnv Era) (n v : Bytes) :
    VerifyDelegation env n v =
      match env.activeEra with
      | .error m => (.error (.eraFetchFailed m), 1)
      | .ok _ =>
        if n.length < 10 ∨ v.length < 10 then (.error .invalidAddressFormat, 1)
        else (.ok true, 2) := by
  cases henv : env.activeEra with
  | error m => simp [VerifyDelegation, getActiveEra, henv]
  | ok e =>
    by_cases h : n.length < 10 ∨ v.length < 10 <;>
      simp [VerifyDelegation, getActiveEra, checkIfNominated, checkIfActive, henv, h]

/-! ## Claim theorems -/

/-- C1: for every triplet of byte strings the message hash is Keccak-256 of
the raw bytes of validator, nominator and text concatenated in that order
with no separators or length prefixes, and the signed message hash is
Keccak-256 of the fixed 28 ASCII bytes of "\x19Ethereum Signed Message:\n32"
followed by the message hash. -/
theorem hashChain_matches_claim (keccak : Bytes → Bytes) (v n t h : Bytes) :
    createMessageHash keccak v n t = keccak (v ++ (n ++ t))
    ∧ toEthSignedMessageHash keccak h = keccak (prefixBytes ++ h)
    ∧ prefixBytes.length = 28
    ∧ prefixBytes = [25, 69, 116, 104, 101, 114, 101, 117, 109, 32, 83, 105, 103,
        110, 101, 100, 32, 77, 101, 115, 115, 97, 103, 101, 58, 10, 51, 50] := by
  refine ⟨?_, rfl, by decide, by decide⟩
  simp [createMessageHash, List.append_assoc]

/-- C2: for every triplet and every signature produced by SignTriplet with
some key and some signing nonce, when the curve recovery yields that key's
public key (the secp256k1 library contract, stated as a hypothesis) the
recovered signer is the address derived from the key, and SubmitMessage on
the hex encoding of that signature against that address returns no error —
for any nonce. -/
theorem signTriplet_recover_roundTrip {K : Type} (keccak : Bytes → Bytes)
    (ecrecover : Bytes → Bytes → Option Bytes) (sign : Nat → Bytes → K → Bytes)
    (pubkeyOf : K → Bytes) (key : K) (v n t : Bytes) (nonce : Nat)
    (hlen : (SignTriplet keccak sign nonce key v n t).length = 65)
    (hbyte : ∀ b ∈ SignTriplet keccak sign nonce key v n t, b < 256)
    (hrec : ecrecover (toEthSignedMessageHash keccak (createMessageHash keccak v n t))
        (SignTriplet keccak sign nonce key v n t) = some (pubkeyOf key)) :
    recoverSigner keccak ecrecover
        (toEthSignedMessageHash keccak (createMessageHash keccak v n t))
        (SignTriplet keccak sign nonce key v n t)
      = .ok (addressFromPubKey keccak (pubkeyOf key))
    ∧ SubmitMessage keccak ecrecover (addressFromPubKey keccak (pubkeyOf key)) v n t
        (hexEncode (SignTriplet keccak sign nonce key v n t)) = .ok () := by
  constructor
  · simp [recoverSigner, hlen, hrec]
  · simp [SubmitMessage, hexDecode_hexEncode _ hbyte, hlen, recoverSigner, hrec]

theorem signTriplet_recover_roundTrip_witness :
    recoverSigner kc0 ecP (toEthSignedMessageHash kc0 (createMessageHash kc0 [1] [2] [3]))
        (SignTriplet kc0 sg65 0 0 [1] [2] [3])
      = .ok (addressFromPubKey kc0 pk0)
    ∧ SubmitMessage kc0 ecP (addressFromPubKey kc0 pk0) [1] [2] [3]
        (hexEncode (SignTriplet kc0 sg65 0 0 [1] [2] [3])) = .ok () :=
  signTriplet_recover_roundTrip kc0 ecP sg65 (fun _ => pk0) 0 [1] [2] [3] 0
    (by decide) (by decide) (by decide)

/-- C3: on a hex string that decodes to a well-formed 65-byte signature
from which curve recovery succeeds, SubmitMessage succeeds exactly when
the recovered address equals the configured oracle address, and on a
mismatch it fails with the error carrying both the expected and the
recovered address. -/
theorem submitMessage_oracle_check (keccak : Bytes → Bytes)
    (ecrecover : Bytes → Bytes → Option Bytes)
    (oracleAddress v n t : Bytes) (sigHex : List Nat) (sig pk : Bytes)
    (hdec : hexDecode sigHex = some sig) (hlen : sig.length = 65)
    (hrec : ecrecover (toEthSignedMessageHash keccak (createMessageHash keccak v n t)) sig
      = some pk) :
    (SubmitMessage keccak ecrecover oracleAddress v n t sigHex = .ok ()
      ↔ addressFromPubKey keccak pk = oracleAddress)
    ∧ (addressFromPubKey keccak pk ≠ oracleAddress →
      SubmitMessage keccak ecrecover oracleAddress v n t sigHex
        = .error (.signerNotOracle oracleAddress (addressFromPubKey keccak pk))) := by
  have hrun : SubmitMessage keccak ecrecover oracleAddress v n t sigHex
      = if addressFromPubKey keccak pk = oracleAddress then .ok ()
        else .error (.signerNotOracle oracleAddress (addressFromPubKey keccak pk)) := by
    by_cases hx : addressFromPubKey keccak pk = oracleAddress <;>
      simp [SubmitMessage, hdec, hlen, recoverSigner, hrec, hx]
  constructor
  · rw [hrun]
    by_cases hx : addressFromPubKey keccak pk = oracleAddress <;> simp [hx]
  · intro hx
    rw [hrun]
    simp [hx]

theorem submitMessage_oracle_check_witness :
    (SubmitMessage kc0 ecP (List.replicate 20 9) [1] [2] [3] (List.replicate 130 48)
        = .ok ()
      ↔ addressFromPubKey kc0 pk0 = List.replicate 20 9)
    ∧ (addressFromPubKey kc0 pk0 ≠ List.replicate 20 9 →
      SubmitMessage kc0 ecP (List.replicate 20 9) [1] [2] [3] (List.replicate 130 48)
        = .error (.signerNotOracle (List.replicate 20 9) (addressFromPubKey kc0 pk0))) :=
  submitMessage_oracle_check kc0 ecP (List.replicate 20 9) [1] [2] [3]
    (List.replicate 130 48) (List.replicate 65 0) pk0 (by decide) (by decide) (by decide)

/-- C4: SubmitMessage rejects malformed encodings before any curve
recovery: an odd-length or non-hex string fails with the decode error (for
every recovery function), a decoded signature of length other than 65
fails with the length error, and whenever the input does not decode to a
65-byte signature the result does not depend on the recovery function at
all. -/
theorem submitMessage_rejects_malformed (keccak : Bytes → Bytes)
    (oracleAddress v n t : Bytes) (sigHex : List Nat) :
    (sigHex.length % 2 = 1 → ∀ ec : Bytes → Bytes → Option Bytes,
      SubmitMessage keccak ec oracleAddress v n t sigHex = .error .invalidSignatureHex)
    ∧ ((∃ c ∈ sigHex, fromHexChar c = none) → ∀ ec : Bytes → Bytes → Option Bytes,
      SubmitMessage keccak ec oracleAddress v n t sigHex = .error .invalidSignatureHex)
    ∧ (∀ sig : Bytes, hexDecode sigHex = some sig → sig.length ≠ 65 →
      ∀ ec : Bytes → Bytes → Option Bytes,
      SubmitMessage keccak ec oracleAddress v n t sigHex
        = .error (.invalidSignatureLength sig.length))
    ∧ ((∀ sig : Bytes, hexDecode sigHex = some sig → sig.length ≠ 65) →
      ∀ ec ec' : Bytes → Bytes → Option Bytes,
      SubmitMessage keccak ec oracleAddress v n t sigHex
        = SubmitMessage keccak ec' oracleAddress v n t sigHex) := by
  refine ⟨?_, ?_, ?_, ?_⟩
  · intro hodd ec
    simp [SubmitMessage, hexDecode_oddLength sigHex hodd]
  · rintro ⟨c, hc, hbad⟩ ec
    simp [SubmitMessage, hexDecode_hasBadChar sigHex c hc hbad]
  · intro sig hdec hne ec
    simp [SubmitMessage, hdec, hne]
  · intro hall ec ec'
    cases hdec : hexDecode sigHex with
    | none => simp [SubmitMessage, hdec]
    | some sig => simp [SubmitMessage, hdec, hall sig hdec]

theorem submitMessage_rejects_malformed_witness :
    SubmitMessage kc0 ec0 [] [] [] [] [48] = .error .invalidSignatureHex
    ∧ SubmitMessage kc0 ec0 [] [] [] [] (strBytes "zz") = .error .invalidSignatureHex
    ∧ SubmitMessage kc0 ec0 [] [] [] [] (strBytes "00")
        = .error (.invalidSignatureLength 1) :=
  ⟨(submitMessage_rejects_malformed kc0 [] [] [] [] [48]).1 (by decide) ec0,
   (submitMessage_rejects_malformed kc0 [] [] [] [] (strBytes "zz")).2.1
     ⟨122, by decide, by decide⟩ ec0,
   (submitMessage_rejects_malformed kc0 [] [] [] [] (strBytes "00")).2.2.1
     [0] (by decide) (by decide) ec0⟩

/-- C5: VerifyDelegation answers true exactly when both addresses meet the
minimum length and the active-era probe succeeds; the nomination-existence
stage returns true for any addresses reaching it and performs no RPC call,
and the activity stage returns true whenever the probe succeeds — no
on-chain storage lookup influences the result. -/
theorem verifyDelegation_true_iff {Era : Type} (env : RpcEnv Era) (n v : Bytes) :
    ((VerifyDelegation env n v).1 = .ok true ↔
      (∃ e, env.activeEra = .ok e) ∧ 10 ≤ n.length ∧ 10 ≤ v.length)
    ∧ (10 ≤ n.length → 10 ≤ v.length → (checkIfNominated n v).1 = .ok true)
    ∧ (∀ e, env.activeEra = .ok e → (checkIfActive env n v).1 = .ok true)
    ∧ (checkIfNominated n v).2 = 0 := by
  refine ⟨?_, ?_, ?_, rfl⟩
  · rw [verifyDelegation_run]
    cases henv : env.activeEra with
    | error m => simp [henv]
    | ok e =>
      by_cases h : n.length < 10 ∨ v.length < 10 <;> simp [henv, h] <;> omega
  · intro hn hv
    simp [checkIfNominated]
    omega
  · intro e he
    simp [checkIfActive, getActiveEra, he]

theorem verifyDelegation_true_iff_witness :
    (VerifyDelegation (⟨Except.ok 0⟩ : RpcEnv Nat)
        (List.replicate 10 1) (List.replicate 10 2)).1 = .ok true :=
  (verifyDelegation_true_iff (⟨Except.ok 0⟩ : RpcEnv Nat)
      (List.replicate 10 1) (List.replicate 10 2)).1.mpr
    ⟨⟨0, rfl⟩, by decide, by decide⟩

/-- C6 counterexample: with a reachable endpoint and both addresses empty,
the check does fail with the invalid-address-format error, but one RPC
call to the chain endpoint has already been made — not zero, as the claim
requires. -/
theorem eraProbe_precedes_formatCheck_counterexample :
    (VerifyDelegation (⟨Except.ok 0⟩ : RpcEnv Nat) [] []).1
      = .error .invalidAddressFormat
    ∧ (VerifyDelegation (⟨Except.ok 0⟩ : RpcEnv Nat) [] []).2 = 1 := by
  decide

/-- C6 amended: for addresses below the minimum length the check fails
with the invalid-address-format error only when the preceding active-era
RPC probe succeeds, and by then exactly one RPC call has been made; when
the probe fails, the era-fetch error is returned instead (also after one
RPC call) and the format error is never reached. -/
theorem invalidFormat_after_eraProbe {Era : Type} (env : RpcEnv Era) (n v : Bytes)
    (hshort : n.length < 10 ∨ v.length < 10) :
    (∀ e, env.activeEra = .ok e →
      (VerifyDelegation env n v).1 = .error .invalidAddressFormat
      ∧ (VerifyDelegation env n v).2 = 1)
    ∧ (∀ m, env.activeEra = .error m →
      (VerifyDelegation env n v).1 = .error (.eraFetchFailed m)
      ∧ (VerifyDelegation env n v).2 = 1) := by
  constructor
  · intro e he
    rw [verifyDelegation_run]
    simp [he, hshort]
  · intro m hm
    rw [verifyDelegation_run]
    simp [hm]

theorem invalidFormat_after_eraProbe_witness :
    (VerifyDelegation (⟨Except.ok 0⟩ : RpcEnv Nat) [] [7]).1
      = .error .invalidAddressFormat
    ∧ (VerifyDelegation (⟨Except.ok 0⟩ : RpcEnv Nat) [] [7]).2 = 1 :=
  (invalidFormat_after_eraProbe (⟨Except.ok 0⟩ : RpcEnv Nat) [] [7]
      (Or.inl (by decide))).1 0 rfl

/-- C7: with all three fields present, a delegation-check error yields the
500 verification_failed JSON error, a false result yields the 400
delegation_not_found JSON error whose body has no signature field, and in
both cases the response does not depend on the signing function — signing
is never reached. -/
theorem verifyHandler_delegation_failure_paths {K : Type}
    (delegCheck : Bytes → Bytes → Except DelegationError Bool)
    (keccak : Bytes → Bytes) (sign sign' : Bytes → K → Option Bytes) (key : K)
    (req : Request) (hv : req.validator_address ≠ [])
    (hn : req.nominator_address ≠ []) (hm : req.msg ≠ []) :
    (∀ e, delegCheck req.nominator_address req.validator_address = .error e →
      CmdOracle.VerifyHandler delegCheck keccak sign key req
        = .errorJson 500 (strBytes "verification_failed")
            (strBytes "Failed to verify delegation: " ++ delegErrString e))
    ∧ (delegCheck req.nominator_address req.validator_address = .ok false →
      CmdOracle.VerifyHandler delegCheck keccak sign key req
        = .errorJson 400 (strBytes "delegation_not_found")
            (strBytes "Nominator has not delegated to the specified validator")
      ∧ bodySignature (CmdOracle.VerifyHandler delegCheck keccak sign key req) = none)
    ∧ ((delegCheck req.nominator_address req.validator_address = .ok false
        ∨ ∃ e, delegCheck req.nominator_address req.validator_address = .error e) →
      CmdOracle.VerifyHandler delegCheck keccak sign key req
        = CmdOracle.VerifyHandler delegCheck keccak sign' key req) := by
  refine ⟨?_, ?_, ?_⟩
  · intro e he
    simp [CmdOracle.VerifyHandler, hv, hn, hm, he]
  · intro hfalse
    constructor
    · simp [CmdOracle.VerifyHandler, hv, hn, hm, hfalse]
    · simp [CmdOracle.VerifyHandler, hv, hn, hm, hfalse, bodySignature]
  · rintro (hfalse | ⟨e, he⟩)
    · simp [CmdOracle.VerifyHandler, hv, hn, hm, hfalse]
    · simp [CmdOracle.VerifyHandler, hv, hn, hm, he]

theorem verifyHandler_delegation_failure_paths_witness :
    CmdOracle.VerifyHandler dgF kc0 sgOpt 0 ⟨[1], [2], [3]⟩
      = .errorJson 400 (strBytes "delegation_not_found")
          (strBytes "Nominator has not delegated to the specified validator")
    ∧ bodySignature (CmdOracle.VerifyHandler dgF kc0 sgOpt 0 ⟨[1], [2], [3]⟩) = none :=
  (verifyHandler_delegation_failure_paths dgF kc0 sgOpt sgOpt 0 ⟨[1], [2], [3]⟩
      (by decide) (by decide) (by decide)).2.1 rfl

/-- C8 counterexample: a successful run of the cmd/oracle/main.go handler
returns a signature field of 130 bare hex characters, whose first two
characters are "00", not the "0x" the claim requires. -/
theorem mainHandler_signature_lacks_0x_counterexample :
    bodySignature (CmdOracle.VerifyHandler dgT kc0 sgOpt 0 ⟨[1], [2], [3]⟩)
      = some (List.replicate 130 48)
    ∧ List.take 2 (List.replicate 130 48) ≠ strBytes "0x" := by
  decide

/-- C8 amended: every successful response echoes the original validator,
nominator and msg fields unchanged; the unnamed cmd variant returns the
signature hex with a leading "0x", while the cmd/oracle/main.go handler
returns the bare hex encoding with no prefix. -/
theorem handlers_success_body {K : Type}
    (delegCheck : Bytes → Bytes → Except DelegationError Bool)
    (keccak : Bytes → Bytes) (sign : Bytes → K → Option Bytes) (key : K)
    (v n m sigBytes : Bytes)
    (hdeleg : delegCheck n v = .ok true) (hsign : sign (keccak m) key = some sigBytes)
    (hv : v ≠ []) (hn : n ≠ []) (hm : m ≠ []) :
    SigningOracleCmd.VerifyHandler delegCheck keccak sign key ⟨v, n, m⟩
      = .successJson 200 v n m (strBytes "0x" ++ hexEncode sigBytes)
    ∧ CmdOracle.VerifyHandler delegCheck keccak sign key ⟨v, n, m⟩
      = .successJson 200 v n m (hexEncode sigBytes) := by
  constructor
  · simp [SigningOracleCmd.VerifyHandler, hv, hn, hm, hdeleg, SignMessage, hsign]
  · simp [CmdOracle.VerifyHandler, hv, hn, hm, hdeleg, SignMessage, hsign]

theorem handlers_success_body_witness :
    SigningOracleCmd.VerifyHandler dgT kc0 sgOpt 0 ⟨[1], [2], [3]⟩
      = .successJson 200 [1] [2] [3]
          (strBytes "0x" ++ hexEncode (List.replicate 65 0))
    ∧ CmdOracle.VerifyHandler dgT kc0 sgOpt 0 ⟨[1], [2], [3]⟩
      = .successJson 200 [1] [2] [3] (hexEncode (List.replicate 65 0)) :=
  handlers_success_body dgT kc0 sgOpt 0 [1] [2] [3] (List.replicate 65 0)
    rfl rfl (by decide) (by decide) (by decide)

/-- C9: the signature a successful /verify run returns is over the plain
Keccak-256 digest of msg alone — it is produced by `sign` applied to
`keccak msg`, it is unchanged when validator and nominator change, and it
does not use the triplet-plus-EIP-191 chain that the contract-verification
path hashes. -/
theorem verify_signs_plain_keccak_only {K : Type}
    (delegCheck : Bytes → Bytes → Except DelegationError Bool)
    (keccak : Bytes → Bytes) (sign : Bytes → K → Option Bytes) (key : K)
    (v n v' n' m sigBytes : Bytes)
    (hdeleg : ∀ a b, delegCheck a b = .ok true)
    (hsign : sign (keccak m) key = some sigBytes)
    (hv : v ≠ []) (hn : n ≠ []) (hm : m ≠ []) (hv' : v' ≠ []) (hn' : n' ≠ []) :
    CmdOracle.VerifyHandler delegCheck keccak sign key ⟨v, n, m⟩
      = .successJson 200 v n m (hexEncode sigBytes)
    ∧ bodySignature (CmdOracle.VerifyHandler delegCheck keccak sign key ⟨v', n', m⟩)
      = some (hexEncode sigBytes)
    ∧ toEthSignedMessageHash keccak (createMessageHash keccak v n m)
      = keccak (prefixBytes ++ keccak ((v ++ n) ++ m)) := by
  refine ⟨?_, ?_, rfl⟩
  · simp [CmdOracle.VerifyHandler, hv, hn, hm, hdeleg, SignMessage, hsign]
  · simp [CmdOracle.VerifyHandler, hv', hn', hm, hdeleg, SignMessage, hsign,
      bodySignature]

theorem verify_signs_plain_keccak_only_witness :
    CmdOracle.VerifyHandler dgT kc0 sgOpt 0 ⟨[1], [2], [3]⟩
      = .successJson 200 [1] [2] [3] (hexEncode (List.replicate 65 0))
    ∧ bodySignature (CmdOracle.VerifyHandler dgT kc0 sgOpt 0 ⟨[4], [5], [3]⟩)
      = some (hexEncode (List.replicate 65 0))
    ∧ toEthSignedMessageHash kc0 (createMessageHash kc0 [1] [2] [3])
      = kc0 (prefixBytes ++ kc0 (([1] ++ [2]) ++ [3])) :=
  verify_signs_plain_keccak_only dgT kc0 sgOpt 0 [1] [2] [4] [5] [3]
    (List.replicate 65 0) (fun _ _ => rfl) rfl
    (by decide) (by decide) (by decide) (by decide) (by decide)

/-- C10: VerifyDelegation never answers (false, nil): every non-error
result is true. Composed with the real delegation check, the handler's
delegation_not_found branch is therefore unreachable for every input. -/
theorem verifyDelegation_never_ok_false {Era K : Type} (env : RpcEnv Era)
    (n v : Bytes) (keccak : Bytes → Bytes) (sign : Bytes → K → Option Bytes)
    (key : K) (req : Request) :
    (VerifyDelegation env n v).1 ≠ .ok false
    ∧ respError (CmdOracle.VerifyHandler
        (fun a b => (VerifyDelegation env a b).1) keccak sign key req)
      ≠ some (strBytes "delegation_not_found") := by
  have hnotfalse : ∀ (a b : Bytes), (VerifyDelegation env a b).1 ≠ .ok false := by
    intro a b
    rw [verifyDelegation_run]
    cases henv : env.activeEra with
    | error m => simp
    | ok e => by_cases h : a.length < 10 ∨ b.length < 10 <;> simp [h]
  refine ⟨hnotfalse n v, ?_⟩
  by_cases hfields : req.validator_address = [] ∨ req.nominator_address = []
      ∨ req.msg = []
  · simp [CmdOracle.VerifyHandler, hfields, respError]
  · cases hdel : (VerifyDelegation env req.nominator_address req.validator_address).1 with
    | error e =>
      simp [CmdOracle.VerifyHandler, hfields, hdel, respError]
      decide
    | ok b =>
      cases b with
      | false => exact absurd hdel (hnotfalse _ _)
      | true =>
        cases hsig : SignMessage keccak sign key req.msg with
        | none => simp [CmdOracle.VerifyHandler, hfields, hdel, hsig, respError]
        | some s => simp [CmdOracle.VerifyHandler, hfields, hdel, hsig, respError]

theorem verifyDelegation_never_ok_false_witness :
    (VerifyDelegation (⟨Except.ok 0⟩ : RpcEnv Nat) [] []).1 ≠ .ok false
    ∧ respError (CmdOracle.VerifyHandler
        (fun a b => (VerifyDelegation (⟨Except.ok 0⟩ : RpcEnv Nat) a b).1)
        kc0 sgOpt 0 ⟨[1], [2], [3]⟩)
      ≠ some (strBytes "delegation_not_found") :=
  verifyDelegation_never_ok_false (⟨Except.ok 0⟩ : RpcEnv Nat) [] [] kc0 sgOpt 0
    ⟨[1], [2], [3]⟩

end Oracle
